import Mathlib

/-!
Verification of the Polity ingestion-and-scoring pipeline.

This file gives a shallow embedding, in Lean 4, of the backend services of
the Polity repository (packages/backend/src/services and the
supabase/functions/sync-congress edge function), and proves or refutes the
frozen specification claims about them.

JavaScript numbers are modelled as exact rationals (the pipeline only adds,
subtracts and divides them) except where `Math.sqrt` appears, which is
modelled over the reals.  Database tables are modelled as lists of rows and
each network-dependent orchestration is modelled as a pure function of the
results of the calls it makes.
-/

namespace Polity

/-! ## Scoring engine (services/politicalScoring.ts) -/

/-- The closed vote enum of the database (`api.vote_type`), also the type of
`members[].vote` in the Congress API detail documents. -/
inductive VoteType
  | Yea
  | Nay
  | Present
  | NotVoting
deriving DecidableEq, Repr

/-- One row of the joined query issued by `calculateTopicScore`:
a `voting_records` row inner-joined with its bill's
`progressive_score` and `topic_ids` columns. -/
structure VotingRecordRow where
  politician_id : String
  vote_type : VoteType
  bill_progressive_score : Option ℚ
  bill_topic_ids : List String
deriving DecidableEq, Repr

/-- The record produced by `calculateTopicScore` (interface `TopicScore`). -/
structure TopicScore where
  politician_id : String
  topic_id : String
  score : ℚ
  vote_count : ℕ
  confidence : ℝ

/-- The supabase query of `calculateTopicScore` (politicalScoring.ts,
lines 17-29): rows of this politician, on bills whose `topic_ids` contains
the topic, with a non-null `progressive_score`. -/
def fetchTopicVotes (db : List VotingRecordRow) (politicianId topicId : String) :
    List VotingRecordRow :=
  db.filter fun r =>
    r.politician_id == politicianId
      && r.bill_topic_ids.contains topicId
      && r.bill_progressive_score.isSome

/-- One iteration of the `for (const vote of votes)` loop of
`calculateTopicScore` (lines 50-81): `continue` on a null score and on
Present / Not Voting, otherwise add `±billProgressiveScore` to the running
total and bump `validVotes`. -/
def tallyStep (acc : ℚ × ℕ) (r : VotingRecordRow) : ℚ × ℕ :=
  match r.bill_progressive_score with
  | none => acc
  | some s =>
    match r.vote_type with
    | VoteType.Yea => (acc.1 + s, acc.2 + 1)
    | VoteType.Nay => (acc.1 - s, acc.2 + 1)
    | VoteType.Present => acc
    | VoteType.NotVoting => acc

/-- The whole loop: returns (`totalScore`, `validVotes`). -/
def tallyVotes (votes : List VotingRecordRow) : ℚ × ℕ :=
  votes.foldl tallyStep (0, 0)

/-- JavaScript Math.max on exact rationals. -/
def jsMax (a b : ℚ) : ℚ := if a ≤ b then b else a

/-- JavaScript Math.min on exact rationals. -/
def jsMin (a b : ℚ) : ℚ := if a ≤ b then a else b

/-- The clamp `Math.max(-1, Math.min(1, x))` to [-1, 1] used by both
classifiers and the topic scorer. -/
def clamp (x : ℚ) : ℚ := jsMax (-1) (jsMin 1 x)

/-- The confidence `Math.min(1.0, Math.sqrt(validVotes) / 10)` (line 98). -/
noncomputable def voteConfidence (validVotes : ℕ) : ℝ :=
  min 1 (Real.sqrt validVotes / 10)

/-- Function `calculateTopicScore` (politicalScoring.ts, lines 14-112), as a pure
function of the voting-record table.  The error path (a failed fetch
returning `null`) is not modelled; every claim about this function is about
its non-error behaviour. -/
noncomputable def calculateTopicScore (db : List VotingRecordRow)
    (politicianId topicId : String) : TopicScore :=
  let votes := fetchTopicVotes db politicianId topicId
  if votes.isEmpty then
    ⟨politicianId, topicId, 0, 0, 0⟩
  else
    let tally := tallyVotes votes
    let totalScore := tally.1
    let validVotes := tally.2
    if validVotes = 0 then
      ⟨politicianId, topicId, 0, 0, 0⟩
    else
      ⟨politicianId, topicId,
        clamp (totalScore / validVotes),
        validVotes,
        voteConfidence validVotes⟩

/-- Function `calculatePoliticalScores` (politicalScoring.ts, lines 117-214): the set
of scores upserted by one scoring run, one per (politician, topic) pair, in
loop order.  The storage-error paths are not modelled. -/
noncomputable def calculatePoliticalScores (politicians topics : List String)
    (db : List VotingRecordRow) : List TopicScore :=
  politicians.flatMap fun p => topics.map fun t => calculateTopicScore db p t

/-! Spec-side notions used to state the claims about the scoring engine. -/

/-- A row's vote is Yea or Nay (the spec's condition for a qualifying vote,
on top of the query's non-null-score and topic filters). -/
def isYeaNay (r : VotingRecordRow) : Bool :=
  r.vote_type == VoteType.Yea || r.vote_type == VoteType.Nay

/-- The spec's qualifying votes of a (legislator, topic) pair: votes of that
legislator on bills tagged with the topic, with a non-null polarity score,
whose vote is Yea or Nay. -/
def qualifyingVotes (db : List VotingRecordRow) (politicianId topicId : String) :
    List VotingRecordRow :=
  (fetchTopicVotes db politicianId topicId).filter isYeaNay

/-- The spec's contribution of one qualifying vote:
`+polarity` for Yea, `-polarity` for Nay. -/
def voteContribution (r : VotingRecordRow) : ℚ :=
  if r.vote_type == VoteType.Yea then r.bill_progressive_score.getD 0
  else -(r.bill_progressive_score.getD 0)

/-! ## JavaScript string primitives

`String.prototype.toLowerCase` and `String.prototype.includes`, modelled
character-wise (the keyword lists are ASCII). -/

/-- JavaScript `s.toLowerCase()`. -/
def jsToLower (s : String) : String := ⟨s.data.map Char.toLower⟩

/-- JavaScript `content.includes(keyword)`: `keyword` occurs as a contiguous substring
of `content`. -/
def jsIncludes (content keyword : String) : Bool :=
  content.data.tails.any fun t => keyword.data.isPrefixOf t

/-! ## Bill classifier (services/politicians.ts, RealVotingDataService) -/

/-- One entry of the dynamically-shaped `bill.subjects` array
(`subjects?: any` in the source): a string, an object whose `name` field is
a string or absent, or a falsy value (null / undefined). -/
inductive Subj
  | str (s : String)
  | obj (name : Option String)
  | nullish
deriving DecidableEq, Repr

/-- The `bill.subjects` field itself: absent (or falsy), present but not an
array, or an array of entries. -/
inductive SubjectsField
  | missing
  | notArray
  | arr (entries : List Subj)
deriving DecidableEq, Repr

/-- The per-entry mapper used by `calculateBillProgressiveScore`,
`associateBillWithTopics` and `syncBills`:
`typeof s === 'string' ? s : (s && s.name) ? s.name : String(s || '')`.
A falsy entry stringifies to `""`; a truthy object without a truthy `name`
stringifies to the JavaScript default `"[object Object]"`. -/
def subjEntryText : Subj → String
  | Subj.str s => s
  | Subj.obj (some n) => if n = "" then "[object Object]" else n
  | Subj.obj none => "[object Object]"
  | Subj.nullish => ""

/-- The subjects blob of `calculateBillProgressiveScore` (politicians.ts,
lines 1101-1114): map the entries, `filter(Boolean)`, `join(' ')`,
`toLowerCase()`; empty when `subjects` is missing or not an array. -/
def subjectsText : SubjectsField → String
  | SubjectsField.arr entries =>
      jsToLower (String.intercalate " "
        ((entries.map subjEntryText).filter fun s => s ≠ ""))
  | _ => ""

/-- The subjects blob of `associateBillWithTopics` (politicians.ts,
lines 1165-1179): identical except each entry is lowercased before the
join. -/
def subjectsTextAssoc : SubjectsField → String
  | SubjectsField.arr entries =>
      String.intercalate " "
        ((entries.map fun s => jsToLower (subjEntryText s)).filter fun s => s ≠ "")
  | _ => ""

/-- The fields of a Congress.gov bill detail document that the classifier
reads (interface `CongressBill` of politicians.ts): `title`,
`summary?.text`, `policyArea?.name` and the dynamic `subjects`. -/
structure CongressBill where
  title : String
  summary : Option String
  policyArea : Option String
  subjects : SubjectsField
deriving DecidableEq, Repr

/-- The content blob of `calculateBillProgressiveScore` (line 1116):
`` `${title} ${summary} ${policyArea} ${subjects}` `` with each part
lowercased and missing parts defaulted to `''`. -/
def billContent (b : CongressBill) : String :=
  jsToLower b.title ++ " " ++ jsToLower (b.summary.getD "") ++ " "
    ++ jsToLower (b.policyArea.getD "") ++ " " ++ subjectsText b.subjects

/-- The content blob of `associateBillWithTopics` (line 1181). -/
def billContentAssoc (b : CongressBill) : String :=
  jsToLower b.title ++ " " ++ jsToLower (b.summary.getD "") ++ " "
    ++ jsToLower (b.policyArea.getD "") ++ " " ++ subjectsTextAssoc b.subjects

/-- The progressive keyword list of `calculateBillProgressiveScore`
(politicians.ts, lines 1119-1126). -/
def progressiveKeywords : List String :=
  ["climate", "environment", "renewable", "clean energy", "healthcare", "medicare",
   "medicaid", "affordable care", "reproductive", "abortion", "contraception",
   "civil rights", "voting rights", "lgbtq", "equality", "justice", "minimum wage",
   "affordable housing", "student loan", "education funding", "childcare",
   "paid leave", "union", "worker protection", "gun control", "gun safety",
   "immigration reform", "pathway to citizenship", "social security", "veterans benefits"]

/-- The conservative keyword list of `calculateBillProgressiveScore`
(politicians.ts, lines 1129-1134). -/
def conservativeKeywords : List String :=
  ["defense spending", "military", "border security", "immigration enforcement",
   "tax reduction", "tax cut", "deregulation", "small business", "second amendment",
   "religious freedom", "school choice", "voucher", "energy independence",
   "oil", "gas", "coal", "traditional values", "parental rights"]

/-- The two `forEach` loops of `calculateBillProgressiveScore`
(lines 1136-1153): every progressive match adds 0.1 to the running score
and bumps `matches`; every conservative match subtracts 0.1 and bumps
`matches`. -/
def scoreAndMatches (content : String) : ℚ × ℕ :=
  let p := progressiveKeywords.foldl
    (fun (acc : ℚ × ℕ) kw => if jsIncludes content kw then (acc.1 + 1/10, acc.2 + 1) else acc)
    (0, 0)
  conservativeKeywords.foldl
    (fun (acc : ℚ × ℕ) kw => if jsIncludes content kw then (acc.1 - 1/10, acc.2 + 1) else acc)
    p

/-- Function `calculateBillProgressiveScore` (politicians.ts, lines 1096-1158):
zero matches return exactly 0, otherwise the accumulated score clamped to
[-1, 1]. -/
def calculateBillProgressiveScore (b : CongressBill) : ℚ :=
  let sm := scoreAndMatches (billContent b)
  if sm.2 = 0 then 0 else clamp sm.1

/-- The static topic keyword table of `associateBillWithTopics`
(politicians.ts, lines 1184-1209), topic id paired with its keywords. -/
def topicMappings : List (String × List String) :=
  [("01234567-89ab-cdef-0123-456789abcdef",
    ["health", "healthcare", "medical", "medicare", "medicaid", "insurance", "care",
     "hospital", "doctor", "nurse", "medicine"]),
   ("11234567-89ab-cdef-0123-456789abcdef",
    ["reproductive", "abortion", "contraception", "birth control", "family planning",
     "pregnancy", "maternal"]),
   ("21234567-89ab-cdef-0123-456789abcdef",
    ["defense", "military", "armed forces", "war", "security", "veteran", "army",
     "navy", "air force", "marines"]),
   ("31234567-89ab-cdef-0123-456789abcdef",
    ["climate", "environment", "energy", "renewable", "carbon", "emission",
     "pollution", "conservation", "green", "sustainable"]),
   ("41234567-89ab-cdef-0123-456789abcdef",
    ["tax", "taxation", "revenue", "budget", "fiscal", "economic", "finance",
     "wealth", "income", "corporate"]),
   ("51234567-89ab-cdef-0123-456789abcdef",
    ["civil rights", "equality", "discrimination", "voting", "lgbtq", "rights",
     "justice", "freedom", "liberty", "constitutional"])]

/-- Function `associateBillWithTopics` (politicians.ts, lines 1160-1225): the set of
topic ids upserted into `bill_topics` for a bill — every topic any of whose
keywords occurs in the content blob. -/
def associateBillWithTopics (b : CongressBill) : List String :=
  (topicMappings.filter fun m =>
    m.2.any fun keyword => jsIncludes (billContentAssoc b) keyword).map Prod.fst

/-! ## Bill classifier (services/votingRecords.ts) -/

/-- The fields of the votingRecords.ts `CongressBill` interface read by its
classifier: `title`, `summary?.text`, plus the identity triple
(`congress`, `type`, `number`) used to build `congress_id`. -/
structure CongressBillVR where
  congress : ℕ
  type : String
  number : ℕ
  title : String
  summary : Option String
deriving DecidableEq, Repr

/-- The text blob of `calculateProgressiveScore` and `classifyBillByTopic`
(votingRecords.ts, lines 71 and 89):
`` `${bill.title} ${bill.summary?.text || ''}`.toLowerCase() ``. -/
def billTextVR (b : CongressBillVR) : String :=
  jsToLower (b.title ++ " " ++ b.summary.getD "")

/-- Progressive indicator list of votingRecords.ts (lines 92-97); in this
file a match moves the score toward -1. -/
def progressiveKeywordsVR : List String :=
  ["universal healthcare", "medicare for all", "climate action", "clean energy",
   "reproductive rights", "abortion access", "voting rights", "civil rights",
   "minimum wage", "tax on wealthy", "corporate tax", "student debt",
   "affordable housing", "gun control", "immigration reform"]

/-- Conservative indicator list of votingRecords.ts (lines 100-104); a
match moves the score toward +1. -/
def conservativeKeywordsVR : List String :=
  ["defense spending", "military budget", "border security", "deportation",
   "tax cuts", "deregulation", "oil drilling", "coal mining",
   "religious freedom", "second amendment", "traditional marriage"]

/-- Function `calculateProgressiveScore` (votingRecords.ts, lines 87-118): -0.2 per
progressive match, +0.2 per conservative match, clamped to [-1, 1]. -/
def calculateProgressiveScoreVR (b : CongressBillVR) : ℚ :=
  let text := billTextVR b
  let s := progressiveKeywordsVR.foldl
    (fun (acc : ℚ) kw => if jsIncludes text kw then acc - 1/5 else acc) 0
  let s2 := conservativeKeywordsVR.foldl
    (fun (acc : ℚ) kw => if jsIncludes text kw then acc + 1/5 else acc) s
  clamp s2

/-- A topic row of the `topics` table (id plus keyword list), as read by
`classifyBillByTopic`. -/
structure TopicRow where
  id : String
  keywords : List String
deriving DecidableEq, Repr

/-- Function `classifyBillByTopic` (votingRecords.ts, lines 62-85): ids of the
topics any of whose keywords occurs in the bill text. -/
def classifyBillByTopic (topics : List TopicRow) (b : CongressBillVR) : List String :=
  (topics.filter fun topic =>
    topic.keywords.any fun keyword => jsIncludes (billTextVR b) (jsToLower keyword)).map
    TopicRow.id

/-! ## Bill persistence -/

/-- A row of the `bills` table, restricted to the columns the claims are
about.  `congress_id` is the external dedup key. -/
structure BillRow where
  congress_id : String
  title : String
  summary : Option String
  progressive_score : ℚ
  topic_ids : List String
deriving DecidableEq, Repr

/-- The composite external id built by `syncBill` (votingRecords.ts,
line 122): `` `${congress}${type}${number}` ``. -/
def congressIdVR (b : CongressBillVR) : String :=
  toString b.congress ++ b.type ++ toString b.number

/-- Function `syncBill` (votingRecords.ts, lines 120-170): look the bill up by its
composite `congress_id`; when found, return the stored row untouched;
otherwise classify, score and insert.  Returns the new table and the
affected row. -/
def syncBill (topics : List TopicRow) (db : List BillRow) (b : CongressBillVR) :
    List BillRow × Option BillRow :=
  let congressId := congressIdVR b
  match db.find? fun row => row.congress_id == congressId with
  | some existing => (db, some existing)
  | none =>
    let row : BillRow :=
      { congress_id := congressId
        title := b.title
        summary := b.summary
        progressive_score := calculateProgressiveScoreVR b
        topic_ids := classifyBillByTopic topics b }
    (db ++ [row], some row)

/-- A row of the `bills` table as written by `syncBills` of politicians.ts
(keyed there by `congress_id = bill.number` within a congress; topic links
live in the separate `bill_topics` table, modelled inline as
`topic_links`). -/
structure BillRowP where
  congress_id : String
  title : String
  summary : Option String
  progressive_score : ℚ
  topic_links : List String
deriving DecidableEq, Repr

/-- The identity of a bill in `syncBills` of politicians.ts. -/
structure CongressBillIdent where
  number : String
  detail : CongressBill
deriving DecidableEq, Repr

/-- The per-bill body of `syncBills` (politicians.ts, lines 624-716):
compute the progressive score from the freshly fetched detail; if a row
with this `congress_id` exists, update it in place with the new data
(topic associations are NOT recomputed); otherwise insert it and associate
topics. -/
def syncOneBill (db : List BillRowP) (bill : CongressBillIdent) : List BillRowP :=
  let progressiveScore := calculateBillProgressiveScore bill.detail
  match db.find? fun row => row.congress_id == bill.number with
  | some _ =>
    db.map fun row =>
      if row.congress_id == bill.number then
        { row with
            title := bill.detail.title
            summary := bill.detail.summary
            progressive_score := progressiveScore }
      else row
  | none =>
    db ++ [{ congress_id := bill.number
             title := bill.detail.title
             summary := bill.detail.summary
             progressive_score := progressiveScore
             topic_links := associateBillWithTopics bill.detail }]

/-! ## Legislator sync (services/sync.ts) -/

/-- A term entry of a Congress.gov member record (`terms.item[i]`). -/
structure MemberTerm where
  startYear : Option ℕ
  chamber : String
deriving DecidableEq, Repr

/-- A Congress.gov member record, restricted to the fields
`syncMembersFromChamber` reads. -/
structure CongressMember where
  bioguideId : String
  name : String
  state : String
  partyName : Option String
  terms : List MemberTerm
deriving DecidableEq, Repr

/-- A row of the `politicians` table (`congress_id` carries the unique
bioguide id). -/
structure PoliticianRow where
  congress_id : String
  name : String
  state : String
  chamber : String
  party : String
deriving DecidableEq, Repr

/-- Party normalization (sync.ts, lines 113-118): default Independent,
Democrat / Republican by case-insensitive substring. -/
def normalizeParty (partyName : Option String) : String :=
  match partyName with
  | none => "I"
  | some p =>
    if jsIncludes (jsToLower p) "democrat" then "D"
    else if jsIncludes (jsToLower p) "republican" then "R"
    else "I"

/-- JavaScript `String.prototype.trim`, character-wise. -/
def jsTrim (s : String) : String :=
  ⟨((s.data.dropWhile Char.isWhitespace).reverse.dropWhile Char.isWhitespace).reverse⟩

/-- JavaScript `s.split(',')`, character-wise. -/
def jsSplitComma (s : String) : List String :=
  (s.data.splitOn ',').map fun l => ⟨l⟩

/-- Name parsing of sync.ts (lines 102-105), without the title-prefix strip
(no claim depends on it): `"Last, First"` becomes `"First Last"`. -/
def parseFullName (name : String) : String :=
  let parts := jsSplitComma name
  let lastName := jsTrim (parts.headD "")
  let firstName := jsTrim ((parts.drop 1).headD "")
  jsTrim (firstName ++ " " ++ lastName)

/-- The outcome of processing one member record. -/
inductive MemberOutcome
  | skippedNoTerm
  | skippedWrongChamber
  | skippedIncomplete
  | duplicate
  | inserted
deriving DecidableEq, Repr

/-- The per-member body of `syncMembersFromChamber` (sync.ts, lines
83-163): filter records without a term, in the wrong chamber, or with
incomplete data; then attempt a plain insert keyed by the unique
`congress_id`.  A duplicate-key failure (Postgres error 23505) is logged
and skipped: it adds no row, no synced count and no error count.  Returns
the new table, the outcome, the synced-count increment and the error-count
increment. -/
def processMember (chamber : String) (db : List PoliticianRow) (m : CongressMember) :
    List PoliticianRow × MemberOutcome × ℕ × ℕ :=
  match m.terms.head? with
  | none => (db, MemberOutcome.skippedNoTerm, 0, 0)
  | some latestTerm =>
    let actualChamber := if latestTerm.chamber == "House of Representatives"
      then "house" else "senate"
    let expectedChamber := if jsToLower chamber == "house" then "house" else "senate"
    if actualChamber ≠ expectedChamber then
      (db, MemberOutcome.skippedWrongChamber, 0, 0)
    else
      let fullName := parseFullName m.name
      if fullName = "" ∨ m.state = "" then
        (db, MemberOutcome.skippedIncomplete, 0, 0)
      else if db.any fun row => row.congress_id == m.bioguideId then
        (db, MemberOutcome.duplicate, 0, 0)
      else
        (db ++ [{ congress_id := m.bioguideId
                  name := fullName
                  state := m.state
                  chamber := actualChamber
                  party := normalizeParty m.partyName }],
          MemberOutcome.inserted, 1, 0)

/-- The member loop of one page of `syncMembersFromChamber`, threading
the table and accumulating (`syncedCount`, `errorCount`). -/
def processMembers (chamber : String) (db : List PoliticianRow)
    (members : List CongressMember) : List PoliticianRow × ℕ × ℕ :=
  members.foldl
    (fun acc m =>
      let step := processMember chamber acc.1 m
      (step.1, acc.2.1 + step.2.2.1, acc.2.2 + step.2.2.2))
    (db, 0, 0)

/-- The table evolution of the member loop alone (the counters of
`processMembers` do not feed back into it). -/
def processMembersDb (chamber : String) (db : List PoliticianRow)
    (members : List CongressMember) : List PoliticianRow :=
  members.foldl (fun d m => (processMember chamber d m).1) db

/-- The result record of `syncPoliticians` (sync.ts, lines 182-235). -/
structure PoliticianSyncResult where
  success : Bool
  totalSynced : ℕ
  errors : List String
deriving DecidableEq, Repr

/-- Function `syncPoliticians` (sync.ts, lines 182-235) as a function of the two
chamber outcomes (each either a synced count or a thrown error message):
a chamber failure is recorded and the other chamber still runs; success is
declared when there were no errors or at least one record synced. -/
def syncPoliticians (senate house : Except String ℕ) : PoliticianSyncResult :=
  let senateStep : ℕ × List String :=
    match senate with
    | Except.ok n => (n, [])
    | Except.error e => (0, ["Failed to sync Senate: " ++ e])
  let houseStep : ℕ × List String :=
    match house with
    | Except.ok n => (n, [])
    | Except.error e => (0, ["Failed to sync House: " ++ e])
  let totalSynced := senateStep.1 + houseStep.1
  let errors := senateStep.2 ++ houseStep.2
  { success := errors.isEmpty || totalSynced > 0
    totalSynced := totalSynced
    errors := errors }

/-! ## Vote sync (politicians.ts syncVotes and the sync-congress edge
function) -/

/-- A row of the `voting_records` table as written by `syncVotes` of
politicians.ts. -/
structure VotingRecordDbRow where
  politician_id : String
  bill_id : String
  congressional_vote_id : String
  vote : VoteType
deriving DecidableEq, Repr

/-- The per-member-vote body of `syncVotes` (politicians.ts, lines
832-872), for a resolved politician and a resolved bill: look up a row
with this (politician, bill, congressional vote) triple; insert only when
none exists — an existing row is left untouched, never updated. -/
def insertMemberVote (db : List VotingRecordDbRow)
    (politicianId billId congressionalVoteId : String) (vote : VoteType) :
    List VotingRecordDbRow × ℕ :=
  if db.any fun row =>
      row.politician_id == politicianId && row.bill_id == billId
        && row.congressional_vote_id == congressionalVoteId then
    (db, 0)
  else
    (db ++ [{ politician_id := politicianId
              bill_id := billId
              congressional_vote_id := congressionalVoteId
              vote := vote }], 1)

/-- A row of `api.voting_records` as written by the sync-congress edge
function (no vote-event column). -/
structure EdgeVotingRecordRow where
  politician_id : String
  bill_id : String
  vote : VoteType
  vote_date : String
deriving DecidableEq, Repr

/-- The `INSERT ... ON CONFLICT (politician_id, bill_id) DO UPDATE` of the
edge function's `syncVotes` (supabase/functions/sync-congress/index.ts,
lines 115-131): keyed upsert on the (legislator, bill) pair — a later sync
overwrites `vote` and `vote_date` in place. -/
def upsertEdgeVote (db : List EdgeVotingRecordRow)
    (politicianId billId : String) (vote : VoteType) (voteDate : String) :
    List EdgeVotingRecordRow :=
  if db.any fun row => row.politician_id == politicianId && row.bill_id == billId then
    db.map fun row =>
      if row.politician_id == politicianId && row.bill_id == billId then
        { row with vote := vote, vote_date := voteDate }
      else row
  else
    db ++ [{ politician_id := politicianId
             bill_id := billId
             vote := vote
             vote_date := voteDate }]

/-! ## Full-sync orchestration (politicians.ts fullSync) -/

/-- The result of `syncBills`. -/
structure BillsStageResult where
  success : Bool
  billsSynced : ℕ
  errors : List String
deriving DecidableEq, Repr

/-- The result of `syncVotes`. -/
structure VotesStageResult where
  success : Bool
  votesSynced : ℕ
  recordsSynced : ℕ
  errors : List String
deriving DecidableEq, Repr

/-- The result of `calculateRealPoliticalScores`. -/
structure ScoresStageResult where
  success : Bool
  politiciansScored : ℕ
  errors : List String
deriving DecidableEq, Repr

/-- The summary block of the `fullSync` result. -/
structure FullSyncSummary where
  bills : ℕ
  houseVotes : ℕ
  senateVotes : ℕ
  totalRecords : ℕ
  politiciansScored : ℕ
deriving DecidableEq, Repr

/-- The `fullSync` result. -/
structure FullSyncResult where
  success : Bool
  summary : FullSyncSummary
  errors : List String
deriving DecidableEq, Repr

/-- Function `fullSync` (politicians.ts, lines 1021-1094), as a function of its four
stage results: the stages run in sequence, every stage's error list is
appended to the merged list, the scoring stage is skipped when
`calculateScores` is false, and the returned success flag is
`errors.length < 10` (the source comment reads "Allow some errors but not
too many"). -/
def fullSync (billResult : BillsStageResult) (houseResult senateResult : VotesStageResult)
    (calculateScores : Bool) (scoreResult : ScoresStageResult) : FullSyncResult :=
  let errors := billResult.errors ++ houseResult.errors ++ senateResult.errors
    ++ (if calculateScores then scoreResult.errors else [])
  { success := errors.length < 10
    summary :=
      { bills := billResult.billsSynced
        houseVotes := houseResult.votesSynced
        senateVotes := senateResult.votesSynced
        totalRecords := houseResult.recordsSynced + senateResult.recordsSynced
        politiciansScored := if calculateScores then scoreResult.politiciansScored else 0 }
    errors := errors }

/-! ## The REST full-sync route (routes/sync.ts, POST /full-sync) -/

/-- The result of `syncVotingRecords` (votingRecords.ts). -/
structure VotingRecordsStageResult where
  success : Bool
  totalBills : ℕ
  totalRecords : ℕ
  errors : List String
deriving DecidableEq, Repr

/-- The result of `calculatePoliticalScores` as seen by the route. -/
structure ScoreCalcStageResult where
  success : Bool
  calculatedScores : ℕ
  errors : List String
deriving DecidableEq, Repr

/-- The `POST /full-sync` handler (routes/sync.ts, lines 206-278) as a
function of its three stage results: it records one flag string per stage
whose `success` is false and reports overall `success` exactly when that
flag list is empty; the per-record error lists inside the stage results are
returned nested in the payload but are not consulted for the overall
flag.  Returns (overall success, the route-level flag list). -/
def routeFullSync (p : PoliticianSyncResult) (v : VotingRecordsStageResult)
    (s : ScoreCalcStageResult) : Bool × List String :=
  let errors := (if p.success then [] else ["Politicians sync failed"])
    ++ (if v.success then [] else ["Voting records sync failed"])
    ++ (if s.success then [] else ["Score calculation failed"])
  (errors.isEmpty, errors)

/-! ## Concrete sample data used by the witnesses -/

/-- A concrete voting-record table: a legislator "L" with a qualifying Yea
on a +1/2 bill, a qualifying Nay on a -1/2 bill, and an excluded Present
vote, all on bills tagged with topic "T". -/
def sampleVoteDb : List VotingRecordRow :=
  [⟨"L", VoteType.Yea, some (1/2), ["T"]⟩,
   ⟨"L", VoteType.Nay, some (-(1/2)), ["T"]⟩,
   ⟨"L", VoteType.Present, some 1, ["T"]⟩]

/-- The loop of `calculateTopicScore` computes exactly the sum of the
spec's contributions over the qualifying (Yea/Nay, non-null-score) votes,
and counts exactly those votes. -/
theorem tallyVotes_eq (votes : List VotingRecordRow) :
    tallyVotes votes =
      (((votes.filter fun r => r.bill_progressive_score.isSome && isYeaNay r).map
          voteContribution).sum,
        (votes.filter fun r => r.bill_progressive_score.isSome && isYeaNay r).length) := by
  suffices h : ∀ (a : ℚ) (n : ℕ),
      votes.foldl tallyStep (a, n) =
        (a + ((votes.filter fun r =>
            r.bill_progressive_score.isSome && isYeaNay r).map voteContribution).sum,
          n + (votes.filter fun r =>
            r.bill_progressive_score.isSome && isYeaNay r).length) by
    simpa [tallyVotes] using h 0 0
  induction votes with
  | nil => intro a n; simp [tallyVotes]
  | cons r rest ih =>
    intro a n
    match hscore : r.bill_progressive_score with
    | none =>
      simp [List.foldl_cons, tallyStep, hscore, ih]
    | some s =>
      cases hv : r.vote_type <;>
        simp [List.foldl_cons, tallyStep, hscore, hv, ih, isYeaNay,
          voteContribution, List.filter_cons, add_assoc, add_comm, add_left_comm,
          sub_eq_add_neg]

/-- Every row the query returns has a non-null score, so filtering it again
by `isSome` does nothing. -/
theorem filter_fetchTopicVotes (db : List VotingRecordRow) (p t : String) :
    ((fetchTopicVotes db p t).filter fun r =>
        r.bill_progressive_score.isSome && isYeaNay r) =
      qualifyingVotes db p t := by
  unfold qualifyingVotes
  apply List.filter_congr
  intro r hr
  have hsome : r.bill_progressive_score.isSome = true := by
    simp only [fetchTopicVotes, List.mem_filter, Bool.and_eq_true] at hr
    exact hr.2.2
  simp [hsome]

/-- On a pair with at least one qualifying vote, `calculateTopicScore`
reaches its final branch and returns the clamped mean of the contributions
of exactly the qualifying votes. -/
theorem calculateTopicScore_of_qualifying (db : List VotingRecordRow)
    (p t : String) (h : qualifyingVotes db p t ≠ []) :
    calculateTopicScore db p t =
      ⟨p, t,
        clamp (((qualifyingVotes db p t).map voteContribution).sum /
          (qualifyingVotes db p t).length),
        (qualifyingVotes db p t).length,
        voteConfidence (qualifyingVotes db p t).length⟩ := by
  have htally := tallyVotes_eq (fetchTopicVotes db p t)
  rw [filter_fetchTopicVotes] at htally
  have hlen : (qualifyingVotes db p t).length ≠ 0 := by
    simpa [List.length_eq_zero] using h
  have hfetch : (fetchTopicVotes db p t).isEmpty = false := by
    rcases hf : fetchTopicVotes db p t with _ | ⟨r, rest⟩
    · exact absurd (by simp [qualifyingVotes, hf]) h
    · simp
  unfold calculateTopicScore
  simp only [hfetch, Bool.false_eq_true, if_false, htally, hlen, if_false, clamp]

/-- On a pair with no qualifying vote, `calculateTopicScore` returns the
explicit all-zero record through one of its two early-return branches. -/
theorem calculateTopicScore_of_no_qualifying (db : List VotingRecordRow)
    (p t : String) (h : qualifyingVotes db p t = []) :
    calculateTopicScore db p t = ⟨p, t, 0, 0, 0⟩ := by
  have htally := tallyVotes_eq (fetchTopicVotes db p t)
  rw [filter_fetchTopicVotes] at htally
  unfold calculateTopicScore
  rcases hf : (fetchTopicVotes db p t).isEmpty with _ | _
  · have hlen : (qualifyingVotes db p t).length = 0 := by simp [h]
    simp only [hf, Bool.false_eq_true, if_false, htally, h, hlen, if_true]
    simp
  · simp [hf]

/-- Claim C2: with at least one qualifying vote, the per-topic score is
`clamp(mean(contributions), -1, 1)` where a qualifying Yea contributes
`+polarity` and a qualifying Nay contributes `-polarity`; Present and
Not Voting votes are excluded entirely, contributing neither a term nor a
count (the qualifying set is by definition the Yea/Nay votes only, and the
reported `vote_count` is exactly its size). -/
theorem topicScore_is_clamped_mean_of_contributions
    (db : List VotingRecordRow) (p t : String)
    (h : qualifyingVotes db p t ≠ []) :
    (calculateTopicScore db p t).score =
      clamp (((qualifyingVotes db p t).map voteContribution).sum /
        (qualifyingVotes db p t).length) ∧
    (calculateTopicScore db p t).vote_count = (qualifyingVotes db p t).length := by
  rw [calculateTopicScore_of_qualifying db p t h]
  exact ⟨rfl, rfl⟩

/-- A concrete run of C2 on `sampleVoteDb`. -/
theorem topicScore_is_clamped_mean_of_contributions_witness :
    qualifyingVotes sampleVoteDb "L" "T" ≠ [] ∧
    ((calculateTopicScore sampleVoteDb "L" "T").score =
      clamp (((qualifyingVotes sampleVoteDb "L" "T").map voteContribution).sum /
        (qualifyingVotes sampleVoteDb "L" "T").length) ∧
      (calculateTopicScore sampleVoteDb "L" "T").vote_count =
        (qualifyingVotes sampleVoteDb "L" "T").length) :=
  ⟨by decide, topicScore_is_clamped_mean_of_contributions sampleVoteDb "L" "T" (by decide)⟩

/-- Claim C3: a (legislator, topic) pair with zero qualifying Yea/Nay votes
still yields the explicit record `{score: 0, vote_count: 0, confidence: 0}`
from `calculateTopicScore`, and a scoring run over politician and topic
lists containing the pair persists exactly that record — it is never
omitted from the recomputed score set. -/
theorem zero_qualifying_votes_yields_explicit_zero_score
    (politicians topics : List String) (db : List VotingRecordRow)
    (p t : String) (hp : p ∈ politicians) (ht : t ∈ topics)
    (h : qualifyingVotes db p t = []) :
    calculateTopicScore db p t = ⟨p, t, 0, 0, 0⟩ ∧
    (⟨p, t, 0, 0, 0⟩ : TopicScore) ∈ calculatePoliticalScores politicians topics db := by
  refine ⟨calculateTopicScore_of_no_qualifying db p t h, ?_⟩
  rw [calculatePoliticalScores, List.mem_flatMap]
  exact ⟨p, hp, List.mem_map.mpr
    ⟨t, ht, calculateTopicScore_of_no_qualifying db p t h⟩⟩

/-- A concrete run of C3: legislator "M" has only a Present vote on a
topic-"T" bill in `sampleVoteDb`, so their qualifying-vote set for "T" is
empty and the all-zero record is still produced and persisted. -/
theorem zero_qualifying_votes_yields_explicit_zero_score_witness :
    "M" ∈ ["L", "M"] ∧ "T" ∈ ["T"] ∧
      qualifyingVotes (sampleVoteDb ++ [⟨"M", VoteType.Present, some 1, ["T"]⟩]) "M" "T" = [] ∧
      (calculateTopicScore (sampleVoteDb ++ [⟨"M", VoteType.Present, some 1, ["T"]⟩]) "M" "T" =
          ⟨"M", "T", 0, 0, 0⟩ ∧
        (⟨"M", "T", 0, 0, 0⟩ : TopicScore) ∈
          calculatePoliticalScores ["L", "M"] ["T"]
            (sampleVoteDb ++ [⟨"M", VoteType.Present, some 1, ["T"]⟩])) :=
  ⟨by decide, by decide, by decide,
    zero_qualifying_votes_yields_explicit_zero_score ["L", "M"] ["T"]
      (sampleVoteDb ++ [⟨"M", VoteType.Present, some 1, ["T"]⟩]) "M" "T"
      (by decide) (by decide) (by decide)⟩

/-- Claim C6: the reported confidence is `min(1, sqrt(vote_count)/10)` on
every path of `calculateTopicScore`; as a function of the vote count it is
monotonically non-decreasing, equals exactly 1 from 100 votes on, and
equals exactly `sqrt(5)/10` at 5 votes. -/
theorem confidence_is_saturating_sqrt :
    (∀ (db : List VotingRecordRow) (p t : String),
        (calculateTopicScore db p t).confidence =
          min 1 (Real.sqrt ((calculateTopicScore db p t).vote_count) / 10)) ∧
    Monotone voteConfidence ∧
    (∀ n : ℕ, 100 ≤ n → voteConfidence n = 1) ∧
    voteConfidence 5 = Real.sqrt 5 / 10 := by
  have sqrt100 : Real.sqrt 100 = 10 := by
    rw [show (100 : ℝ) = 10 ^ 2 by norm_num, Real.sqrt_sq (by norm_num)]
  refine ⟨?_, ?_, ?_, ?_⟩
  · intro db p t
    by_cases h : qualifyingVotes db p t = []
    · rw [calculateTopicScore_of_no_qualifying db p t h]
      simp [voteConfidence]
    · rw [calculateTopicScore_of_qualifying db p t h]
      rfl
  · intro a b hab
    unfold voteConfidence
    refine min_le_min le_rfl ?_
    have : Real.sqrt a ≤ Real.sqrt b := Real.sqrt_le_sqrt (by exact_mod_cast hab)
    linarith
  · intro n hn
    unfold voteConfidence
    refine min_eq_left ?_
    rw [le_div_iff₀ (by norm_num : (0:ℝ) < 10), one_mul]
    calc (10:ℝ) = Real.sqrt 100 := sqrt100.symm
    _ ≤ Real.sqrt n := Real.sqrt_le_sqrt (by exact_mod_cast hn)
  · unfold voteConfidence
    have h5 : ((5 : ℕ) : ℝ) = (5 : ℝ) := by norm_num
    rw [h5]
    refine min_eq_right ?_
    rw [div_le_one (by norm_num : (0:ℝ) < 10)]
    calc Real.sqrt 5 ≤ Real.sqrt 100 := Real.sqrt_le_sqrt (by norm_num)
    _ = 10 := sqrt100

/-- A concrete application of C6: the saturation bound is reached at
exactly 100 qualifying votes. -/
theorem confidence_is_saturating_sqrt_witness :
    voteConfidence 100 = 1 :=
  confidence_is_saturating_sqrt.2.2.1 100 (le_refl 100)

/-- A keyword fold whose guard never fires leaves its accumulator
untouched. -/
theorem foldl_if_skip {β : Type} (content : String) (g : β → β) :
    ∀ (l : List String) (init : β),
      (∀ kw ∈ l, jsIncludes content kw = false) →
      l.foldl (fun acc kw => if jsIncludes content kw then g acc else acc) init = init := by
  intro l
  induction l with
  | nil => intro init _; rfl
  | cons kw rest ih =>
    intro init h
    have hkw : jsIncludes content kw = false := h kw (List.mem_cons_self kw rest)
    simpa [hkw] using ih init fun k hk => h k (List.mem_cons_of_mem kw hk)

/-- Claim C7: a bill whose combined text matches no keyword of either
polarity list gets a polarity score of exactly 0 (a value, not null), in
both classifiers — `calculateBillProgressiveScore` of politicians.ts and
`calculateProgressiveScore` of votingRecords.ts. -/
theorem zero_keyword_matches_give_zero_polarity
    (b : CongressBill) (b2 : CongressBillVR)
    (h1 : ∀ kw ∈ progressiveKeywords, jsIncludes (billContent b) kw = false)
    (h2 : ∀ kw ∈ conservativeKeywords, jsIncludes (billContent b) kw = false)
    (h3 : ∀ kw ∈ progressiveKeywordsVR, jsIncludes (billTextVR b2) kw = false)
    (h4 : ∀ kw ∈ conservativeKeywordsVR, jsIncludes (billTextVR b2) kw = false) :
    calculateBillProgressiveScore b = 0 ∧ calculateProgressiveScoreVR b2 = 0 := by
  constructor
  · have hsm : scoreAndMatches (billContent b) = (0, 0) := by
      unfold scoreAndMatches
      rw [foldl_if_skip _ _ _ _ h1, foldl_if_skip _ _ _ _ h2]
    simp [calculateBillProgressiveScore, hsm]
  · simp only [calculateProgressiveScoreVR]
    rw [foldl_if_skip _ _ _ _ h3, foldl_if_skip _ _ _ _ h4]
    norm_num [clamp, jsMax, jsMin]

/-- A concrete run of C7: a bill titled "zzz" with no summary, policy area
or subjects matches no keyword in any list and scores exactly 0 in both
classifiers. -/
theorem zero_keyword_matches_give_zero_polarity_witness :
    (∀ kw ∈ progressiveKeywords,
        jsIncludes (billContent ⟨"zzz", none, none, SubjectsField.missing⟩) kw = false) ∧
    (calculateBillProgressiveScore ⟨"zzz", none, none, SubjectsField.missing⟩ = 0 ∧
      calculateProgressiveScoreVR ⟨118, "hr", 1, "zzz", none⟩ = 0) :=
  ⟨by decide,
    zero_keyword_matches_give_zero_polarity
      ⟨"zzz", none, none, SubjectsField.missing⟩ ⟨118, "hr", 1, "zzz", none⟩
      (by decide) (by decide) (by decide) (by decide)⟩

/-- Counterexample to claim C10 as stated: a truthy subjects entry that is
neither a string nor an object with a (truthy) name field does NOT
contribute nothing to the matched text — it contributes the JavaScript
default stringification "[object Object]".  Inserting such an entry
between the string entries "clean" and "energy" breaks the
"clean energy" keyword match, changing the computed polarity score from
1/10 to 0, so the score is not produced from the other fields alone. -/
theorem subjects_entry_contributes_counterexample :
    subjEntryText (Subj.obj none) = "[object Object]" ∧
    subjEntryText (Subj.obj none) ≠ "" ∧
    calculateBillProgressiveScore
        ⟨"a bill", none, none,
          SubjectsField.arr [Subj.str "clean", Subj.obj none, Subj.str "energy"]⟩ = 0 ∧
    calculateBillProgressiveScore
        ⟨"a bill", none, none, SubjectsField.arr [Subj.str "clean", Subj.str "energy"]⟩
      = 1/10 := by
  refine ⟨rfl, by decide, ?_, ?_⟩
  · simp +decide [calculateBillProgressiveScore, scoreAndMatches, billContent,
      subjectsText, subjEntryText, jsToLower, progressiveKeywords, conservativeKeywords]
  · simp +decide [calculateBillProgressiveScore, scoreAndMatches, billContent,
      subjectsText, subjEntryText, jsToLower, progressiveKeywords, conservativeKeywords,
      clamp, jsMax, jsMin]
    norm_num

/-- Claim C10 as amended: polarity scoring and topic classification are
total in the subjects field — a missing or non-array `subjects` contributes
empty text, so score and topics are produced from title, summary and
policy area alone; a falsy entry contributes nothing; a string entry
contributes itself and an object entry with a non-empty name contributes
the name; a truthy entry that is neither contributes its JavaScript
default string form "[object Object]"; no case raises an error. -/
theorem subjects_handling_is_total
    : (∀ (ti : String) (su po : Option String),
        billContent ⟨ti, su, po, SubjectsField.missing⟩
            = jsToLower ti ++ " " ++ jsToLower (su.getD "") ++ " "
              ++ jsToLower (po.getD "") ++ " " ∧
        billContent ⟨ti, su, po, SubjectsField.notArray⟩
            = billContent ⟨ti, su, po, SubjectsField.missing⟩ ∧
        calculateBillProgressiveScore ⟨ti, su, po, SubjectsField.notArray⟩
            = calculateBillProgressiveScore ⟨ti, su, po, SubjectsField.missing⟩ ∧
        associateBillWithTopics ⟨ti, su, po, SubjectsField.notArray⟩
            = associateBillWithTopics ⟨ti, su, po, SubjectsField.missing⟩) ∧
      subjEntryText Subj.nullish = "" ∧
      (∀ s, subjEntryText (Subj.str s) = s) ∧
      (∀ n, n ≠ "" → subjEntryText (Subj.obj (some n)) = n) ∧
      subjEntryText (Subj.obj none) = "[object Object]" := by
  refine ⟨fun ti su po => ⟨?_, rfl, rfl, rfl⟩, rfl, fun s => rfl, fun n hn => ?_, rfl⟩
  · show _ ++ subjectsText SubjectsField.missing = _
    simp [subjectsText]
  · simp [subjEntryText, hn]

/-- A concrete application of the amended C10: an object entry with the
non-empty name "Health" contributes exactly that name. -/
theorem subjects_handling_is_total_witness :
    ("Health" : String) ≠ "" ∧ subjEntryText (Subj.obj (some "Health")) = "Health" :=
  ⟨by decide, subjects_handling_is_total.2.2.2.1 "Health" (by decide)⟩

/-! ## Bill re-ingestion (claim C5) -/

/-- The row inserted by `syncOneBill` when the bill is new. -/
def newBillRowP (bill : CongressBillIdent) : BillRowP :=
  { congress_id := bill.number
    title := bill.detail.title
    summary := bill.detail.summary
    progressive_score := calculateBillProgressiveScore bill.detail
    topic_links := associateBillWithTopics bill.detail }

/-- The in-place update applied by `syncOneBill` when the bill exists. -/
def updateBillRowP (bill : CongressBillIdent) (row : BillRowP) : BillRowP :=
  if row.congress_id == bill.number then
    { row with
        title := bill.detail.title
        summary := bill.detail.summary
        progressive_score := calculateBillProgressiveScore bill.detail }
  else row

/-- Running `syncOneBill` on an unseen `congress_id` appends the freshly scored and
topic-linked row. -/
theorem syncOneBill_not_found (db : List BillRowP) (bill : CongressBillIdent)
    (h : (db.find? fun row => row.congress_id == bill.number) = none) :
    syncOneBill db bill = db ++ [newBillRowP bill] := by
  simp only [syncOneBill, h, newBillRowP]

/-- Running `syncOneBill` on a seen `congress_id` maps the update over the table. -/
theorem syncOneBill_found (db : List BillRowP) (bill : CongressBillIdent) (r : BillRowP)
    (h : (db.find? fun row => row.congress_id == bill.number) = some r) :
    syncOneBill db bill = db.map (updateBillRowP bill) := by
  simp only [syncOneBill, h]
  exact List.map_congr_left fun row _ => by simp only [updateBillRowP]

/-- After `syncOneBill`, some row carrying the bill's `congress_id` is in
the table. -/
theorem syncOneBill_mem (db : List BillRowP) (bill : CongressBillIdent) :
    ∃ row ∈ syncOneBill db bill, (row.congress_id == bill.number) = true := by
  rcases hfind : db.find? fun row => row.congress_id == bill.number with _ | ⟨r⟩
  · rw [syncOneBill_not_found db bill hfind]
    exact ⟨newBillRowP bill,
      List.mem_append_right db (List.mem_singleton.mpr rfl), by simp [newBillRowP]⟩
  · rw [syncOneBill_found db bill r hfind]
    have hr : (r.congress_id == bill.number) = true := by
      simpa using List.find?_some hfind
    exact ⟨updateBillRowP bill r, List.mem_map.mpr ⟨r, List.mem_of_find?_eq_some hfind, rfl⟩,
      by simp [updateBillRowP, hr]⟩

/-- A second `syncOneBill` for a bill with the same `congress_id` takes the
update branch: it maps the stored rows in place. -/
theorem syncOneBill_again_is_update (db : List BillRowP) (bill bill2 : CongressBillIdent)
    (hid : bill2.number = bill.number) :
    syncOneBill (syncOneBill db bill) bill2 =
      (syncOneBill db bill).map (updateBillRowP bill2) := by
  obtain ⟨row, hmem, hrow⟩ := syncOneBill_mem db bill
  have hsome : ((syncOneBill db bill).find? fun row =>
      row.congress_id == bill2.number).isSome = true := by
    rw [List.find?_isSome]
    exact ⟨row, hmem, by rw [hid]; exact hrow⟩
  rcases hfind : (syncOneBill db bill).find? fun row => row.congress_id == bill2.number
    with _ | ⟨r⟩
  · rw [hfind] at hsome; simp at hsome
  · exact syncOneBill_found _ bill2 r hfind

/-- Counterexample to claim C5 as stated: in the `syncBills` path of
politicians.ts, re-ingesting the same `congress_id` with changed upstream
text leaves one row but REPLACES its polarity score with a freshly computed
one.  A bill first seen titled "climate bill" scores +1/10; re-ingested
titled "oil bill" the stored score becomes -1/10. -/
theorem bill_reingestion_rescore_counterexample :
    ((syncOneBill [] ⟨"1", ⟨"climate bill", none, none, SubjectsField.missing⟩⟩).map
        BillRowP.progressive_score = [1/10]) ∧
    ((syncOneBill (syncOneBill [] ⟨"1", ⟨"climate bill", none, none, SubjectsField.missing⟩⟩)
        ⟨"1", ⟨"oil bill", none, none, SubjectsField.missing⟩⟩).map
        BillRowP.progressive_score = [-(1/10)]) := by
  constructor
  · simp +decide [syncOneBill, calculateBillProgressiveScore, scoreAndMatches, billContent,
      subjectsText, jsToLower, progressiveKeywords, conservativeKeywords, clamp, jsMax, jsMin]
    norm_num
  · simp +decide [syncOneBill, calculateBillProgressiveScore, scoreAndMatches, billContent,
      subjectsText, jsToLower, progressiveKeywords, conservativeKeywords, clamp, jsMax, jsMin]
    norm_num

/-- Claim C5 as amended: re-ingesting the same external id keeps exactly
one Bill row and never touches its topic associations; in the
votingRecords.ts `syncBill` path the entire row is returned as-is (scores
included, upstream changes ignored), while in the politicians.ts
`syncBills` path the row's polarity score is recomputed from the newly
fetched detail, so it always equals the score of the MOST RECENT
ingestion — it is unchanged only when the recomputed score coincides. -/
theorem bill_reingestion_amended
    : (∀ (topics topics2 : List TopicRow) (db : List BillRow) (b b2 : CongressBillVR),
        congressIdVR b2 = congressIdVR b →
        (syncBill topics2 (syncBill topics db b).1 b2).1 = (syncBill topics db b).1) ∧
      (∀ (db : List BillRowP) (bill bill2 : CongressBillIdent),
        bill2.number = bill.number →
        (syncOneBill (syncOneBill db bill) bill2).map BillRowP.topic_links
            = (syncOneBill db bill).map BillRowP.topic_links ∧
        (syncOneBill (syncOneBill db bill) bill2).length
            = (syncOneBill db bill).length) ∧
      (∀ (db : List BillRowP) (bill bill2 : CongressBillIdent),
        db.countP (fun row => row.congress_id == bill.number) = 0 →
        bill2.number = bill.number →
        (syncOneBill (syncOneBill db bill) bill2).countP
          (fun row => row.congress_id == bill.number) = 1) ∧
      (∀ (db : List BillRowP) (bill : CongressBillIdent) (row : BillRowP),
        row ∈ syncOneBill db bill → row.congress_id = bill.number →
        row.progressive_score = calculateBillProgressiveScore bill.detail) := by
  refine ⟨?_, ?_, ?_, ?_⟩
  · intro topics topics2 db b b2 hid
    rcases hfind : db.find? fun row => row.congress_id == congressIdVR b with _ | ⟨r⟩
    · have h1 : syncBill topics db b =
          (db ++ [⟨congressIdVR b, b.title, b.summary, calculateProgressiveScoreVR b,
            classifyBillByTopic topics b⟩], some ⟨congressIdVR b, b.title, b.summary,
            calculateProgressiveScoreVR b, classifyBillByTopic topics b⟩) := by
        simp only [syncBill, hfind]
      rw [h1]
      simp only [syncBill, hid, List.find?_append, hfind]
      simp
    · have h1 : syncBill topics db b = (db, some r) := by
        simp only [syncBill, hfind]
      rw [h1]
      simp only [syncBill, hid, hfind]
  · intro db bill bill2 hid
    rw [syncOneBill_again_is_update db bill bill2 hid]
    refine ⟨?_, List.length_map _ _⟩
    rw [List.map_map]
    refine List.map_congr_left fun row _ => ?_
    simp only [Function.comp, updateBillRowP]
    by_cases hrow : (row.congress_id == bill2.number) = true
    · rw [if_pos hrow]
    · rw [if_neg hrow]
  · intro db bill bill2 h0 hid
    have hnone : (db.find? fun row => row.congress_id == bill.number) = none := by
      rw [List.find?_eq_none]
      exact List.countP_eq_zero.mp h0
    have hcong : ∀ row : BillRowP,
        ((fun row => row.congress_id == bill.number) ∘ updateBillRowP bill2) row
          = (fun row => row.congress_id == bill.number) row := by
      intro row
      simp only [Function.comp, updateBillRowP]
      by_cases hrow : (row.congress_id == bill2.number) = true
      · rw [if_pos hrow]
      · rw [if_neg hrow]
    rw [syncOneBill_again_is_update db bill bill2 hid,
      syncOneBill_not_found db bill hnone, List.countP_map,
      List.countP_congr fun row _ => by rw [hcong row],
      List.countP_append, h0]
    simp [newBillRowP]
  · intro db bill row hmem hid
    rcases hfind : db.find? fun r => r.congress_id == bill.number with _ | ⟨r⟩
    · rw [syncOneBill_not_found db bill hfind] at hmem
      rcases List.mem_append.mp hmem with hdb | hnew
      · have := (List.find?_eq_none.mp hfind) row hdb
        rw [hid] at this
        simp at this
      · rw [List.mem_singleton.mp hnew, newBillRowP]
    · rw [syncOneBill_found db bill r hfind] at hmem
      obtain ⟨orig, _, horig⟩ := List.mem_map.mp hmem
      rw [updateBillRowP] at horig
      by_cases hor : (orig.congress_id == bill.number) = true
      · rw [if_pos hor] at horig
        rw [← horig]
      · rw [if_neg hor] at horig
        rw [← horig] at hid
        exact absurd (by simp [hid]) hor

/-- A concrete application of the amended C5: re-ingesting the climate bill
with changed title "oil bill" leaves the votingRecords.ts table untouched,
and in the politicians.ts path keeps exactly one row with that id. -/
theorem bill_reingestion_amended_witness :
    congressIdVR ⟨118, "hr", 1, "oil bill", none⟩
        = congressIdVR ⟨118, "hr", 1, "climate bill", none⟩ ∧
    (syncBill [] ((syncBill [] [] ⟨118, "hr", 1, "climate bill", none⟩).1)
        ⟨118, "hr", 1, "oil bill", none⟩).1
      = (syncBill [] [] ⟨118, "hr", 1, "climate bill", none⟩).1 ∧
    ([] : List BillRowP).countP (fun row => row.congress_id == "1") = 0 ∧
    (syncOneBill (syncOneBill [] ⟨"1", ⟨"climate bill", none, none, SubjectsField.missing⟩⟩)
        ⟨"1", ⟨"oil bill", none, none, SubjectsField.missing⟩⟩).countP
      (fun row => row.congress_id == "1") = 1 :=
  ⟨by decide,
    bill_reingestion_amended.1 [] [] [] ⟨118, "hr", 1, "climate bill", none⟩
      ⟨118, "hr", 1, "oil bill", none⟩ (by decide),
    by decide,
    bill_reingestion_amended.2.2.1 []
      ⟨"1", ⟨"climate bill", none, none, SubjectsField.missing⟩⟩
      ⟨"1", ⟨"oil bill", none, none, SubjectsField.missing⟩⟩ (by decide) (by decide)⟩

/-! ## Voting-record keys (claim C4) -/

/-- Counterexample to claim C4 as stated: in the `syncVotes` path of
politicians.ts, voting records are keyed by (legislator, bill, vote
event), not (legislator, bill).  Syncing two different roll-call events on
the same bill for the same legislator stores TWO records for that
(legislator, bill) pair; and re-syncing the same event with a changed vote
does not overwrite the stored record. -/
theorem voting_record_pair_counterexample :
    ((insertMemberVote ((insertMemberVote [] "p" "b" "cv1" VoteType.Yea).1)
        "p" "b" "cv2" VoteType.Nay).1.countP
      (fun row => row.politician_id == "p" && row.bill_id == "b") = 2) ∧
    ((insertMemberVote ((insertMemberVote [] "p" "b" "cv1" VoteType.Yea).1)
        "p" "b" "cv1" VoteType.Nay).1.map VotingRecordDbRow.vote = [VoteType.Yea]) := by
  decide

/-- Claim C4 as amended: the two sync paths key voting records
differently.  The backend `syncVotes` path deduplicates on the full
(legislator, bill, vote event) triple — re-syncing an existing triple
inserts nothing and leaves the stored record unchanged (no overwrite), and
at most one record per triple is maintained, but distinct vote events on
the same bill yield distinct records for one (legislator, bill) pair.  The
sync-congress edge function upserts keyed on (legislator, bill): at most
one record per pair is maintained and a later sync overwrites the stored
vote and date. -/
theorem voting_record_keys_amended
    : (∀ (db : List VotingRecordDbRow) (p b cv : String) (v : VoteType),
        (db.any fun row => row.politician_id == p && row.bill_id == b
            && row.congressional_vote_id == cv) = true →
        insertMemberVote db p b cv v = (db, 0)) ∧
      (∀ (db : List VotingRecordDbRow) (p b cv : String) (v : VoteType) (p2 b2 cv2 : String),
        db.countP (fun row => row.politician_id == p2 && row.bill_id == b2
            && row.congressional_vote_id == cv2) ≤ 1 →
        (insertMemberVote db p b cv v).1.countP (fun row => row.politician_id == p2
            && row.bill_id == b2 && row.congressional_vote_id == cv2) ≤ 1) ∧
      (∀ (db : List EdgeVotingRecordRow) (p b : String) (v : VoteType) (d p2 b2 : String),
        db.countP (fun row => row.politician_id == p2 && row.bill_id == b2) ≤ 1 →
        (upsertEdgeVote db p b v d).countP
          (fun row => row.politician_id == p2 && row.bill_id == b2) ≤ 1) ∧
      (∀ (db : List EdgeVotingRecordRow) (p b : String) (v : VoteType) (d : String)
          (row : EdgeVotingRecordRow), row ∈ upsertEdgeVote db p b v d →
        row.politician_id = p → row.bill_id = b →
        row.vote = v ∧ row.vote_date = d) := by
  refine ⟨?_, ?_, ?_, ?_⟩
  · intro db p b cv v h
    simp only [insertMemberVote, h, if_true]
  · intro db p b cv v p2 b2 cv2 hle
    by_cases hany : (db.any fun row => row.politician_id == p && row.bill_id == b
        && row.congressional_vote_id == cv) = true
    · simpa only [insertMemberVote, hany, if_true] using hle
    · have hfalse : (db.any fun row => row.politician_id == p && row.bill_id == b
          && row.congressional_vote_id == cv) = false := by simpa using hany
      have hres : (insertMemberVote db p b cv v).1 = db ++ [⟨p, b, cv, v⟩] := by
        simp [insertMemberVote, hfalse]
      rw [hres, List.countP_append]
      by_cases hnew : (((⟨p, b, cv, v⟩ : VotingRecordDbRow).politician_id == p2)
          && ((⟨p, b, cv, v⟩ : VotingRecordDbRow).bill_id == b2)
          && ((⟨p, b, cv, v⟩ : VotingRecordDbRow).congressional_vote_id == cv2)) = true
      · have hzero : db.countP (fun row => row.politician_id == p2 && row.bill_id == b2
            && row.congressional_vote_id == cv2) = 0 := by
          rw [List.countP_eq_zero]
          intro row hrow
          have hraw := (List.any_eq_false.mp hfalse) row hrow
          simp only [Bool.and_eq_true, beq_iff_eq] at hnew
          obtain ⟨⟨hp2, hb2⟩, hcv2⟩ := hnew
          intro hcontra
          simp only [Bool.and_eq_true, beq_iff_eq] at hcontra
          exact hraw (by
            simp only [Bool.and_eq_true, beq_iff_eq]
            exact ⟨⟨hcontra.1.1.trans hp2.symm, hcontra.1.2.trans hb2.symm⟩,
              hcontra.2.trans hcv2.symm⟩)
        rw [hzero]
        have hsing : List.countP (fun row => row.politician_id == p2 && row.bill_id == b2
            && row.congressional_vote_id == cv2) [(⟨p, b, cv, v⟩ : VotingRecordDbRow)]
              ≤ 1 := by
          rw [List.countP_cons, List.countP_nil]
          split <;> omega
        omega
      · have hsing : List.countP (fun row => row.politician_id == p2 && row.bill_id == b2
            && row.congressional_vote_id == cv2) [(⟨p, b, cv, v⟩ : VotingRecordDbRow)]
              = 0 := by
          rw [List.countP_cons, List.countP_nil, if_neg hnew]
        omega
  · intro db p b v d p2 b2 hle
    by_cases hany : (db.any fun row => row.politician_id == p && row.bill_id == b) = true
    · simp only [upsertEdgeVote, hany, if_true, List.countP_map]
      have hcong : ∀ row : EdgeVotingRecordRow,
          ((fun row => row.politician_id == p2 && row.bill_id == b2) ∘ fun row =>
            if row.politician_id == p && row.bill_id == b then
              { row with vote := v, vote_date := d }
            else row) row
            = (fun row : EdgeVotingRecordRow =>
                row.politician_id == p2 && row.bill_id == b2) row := by
        intro row
        simp only [Function.comp]
        by_cases hrow : (row.politician_id == p && row.bill_id == b) = true
        · rw [if_pos hrow]
        · rw [if_neg hrow]
      rw [List.countP_congr fun row _ => by rw [hcong row]]
      exact hle
    · have hfalse : (db.any fun row =>
          row.politician_id == p && row.bill_id == b) = false := by simpa using hany
      have hres : upsertEdgeVote db p b v d = db ++ [⟨p, b, v, d⟩] := by
        simp [upsertEdgeVote, hfalse]
      rw [hres, List.countP_append]
      by_cases hnew : (((⟨p, b, v, d⟩ : EdgeVotingRecordRow).politician_id == p2)
          && ((⟨p, b, v, d⟩ : EdgeVotingRecordRow).bill_id == b2)) = true
      · have hzero : db.countP
            (fun row => row.politician_id == p2 && row.bill_id == b2) = 0 := by
          rw [List.countP_eq_zero]
          intro row hrow
          have hraw := (List.any_eq_false.mp hfalse) row hrow
          simp only [Bool.and_eq_true, beq_iff_eq] at hnew
          obtain ⟨hp2, hb2⟩ := hnew
          intro hcontra
          simp only [Bool.and_eq_true, beq_iff_eq] at hcontra
          exact hraw (by
            simp only [Bool.and_eq_true, beq_iff_eq]
            exact ⟨hcontra.1.trans hp2.symm, hcontra.2.trans hb2.symm⟩)
        rw [hzero]
        have hsing : List.countP (fun row => row.politician_id == p2 && row.bill_id == b2)
            [(⟨p, b, v, d⟩ : EdgeVotingRecordRow)] ≤ 1 := by
          rw [List.countP_cons, List.countP_nil]
          split <;> omega
        omega
      · have hsing : List.countP (fun row => row.politician_id == p2 && row.bill_id == b2)
            [(⟨p, b, v, d⟩ : EdgeVotingRecordRow)] = 0 := by
          rw [List.countP_cons, List.countP_nil, if_neg hnew]
        omega
  · intro db p b v d row hmem hp hb
    by_cases hany : (db.any fun row => row.politician_id == p && row.bill_id == b) = true
    · simp only [upsertEdgeVote, hany, if_true] at hmem
      obtain ⟨orig, _, horig⟩ := List.mem_map.mp hmem
      by_cases hor : (orig.politician_id == p && orig.bill_id == b) = true
      · rw [if_pos hor] at horig
        rw [← horig]
        exact ⟨rfl, rfl⟩
      · rw [if_neg hor] at horig
        rw [← horig] at hp hb
        exact absurd (by simp [hp, hb]) hor
    · have hfalse : (db.any fun row =>
          row.politician_id == p && row.bill_id == b) = false := by simpa using hany
      have hres : upsertEdgeVote db p b v d = db ++ [⟨p, b, v, d⟩] := by
        simp [upsertEdgeVote, hfalse]
      rw [hres] at hmem
      rcases List.mem_append.mp hmem with hdb | hnew
      · have hraw := (List.any_eq_false.mp hfalse) row hdb
        exact absurd (by simp [hp, hb]) hraw
      · rw [List.mem_singleton.mp hnew]
        exact ⟨rfl, rfl⟩

/-- A concrete application of the amended C4: re-syncing the stored
(p, b, cv1) triple inserts nothing, and the edge upsert keeps a single
record per (legislator, bill) pair. -/
theorem voting_record_keys_amended_witness :
    (((insertMemberVote [] "p" "b" "cv1" VoteType.Yea).1.any fun row =>
        row.politician_id == "p" && row.bill_id == "b"
          && row.congressional_vote_id == "cv1") = true ∧
      insertMemberVote ((insertMemberVote [] "p" "b" "cv1" VoteType.Yea).1)
        "p" "b" "cv1" VoteType.Nay = ((insertMemberVote [] "p" "b" "cv1" VoteType.Yea).1, 0)) ∧
    ((upsertEdgeVote [] "p" "b" VoteType.Yea "2024-01-01").countP
        (fun row => row.politician_id == "p" && row.bill_id == "b") ≤ 1 ∧
      (upsertEdgeVote (upsertEdgeVote [] "p" "b" VoteType.Yea "2024-01-01")
          "p" "b" VoteType.Nay "2024-02-02").countP
        (fun row => row.politician_id == "p" && row.bill_id == "b") ≤ 1) :=
  ⟨⟨by decide,
      voting_record_keys_amended.1 ((insertMemberVote [] "p" "b" "cv1" VoteType.Yea).1)
        "p" "b" "cv1" VoteType.Nay (by decide)⟩,
    ⟨by decide,
      voting_record_keys_amended.2.2.1 (upsertEdgeVote [] "p" "b" VoteType.Yea "2024-01-01")
        "p" "b" VoteType.Nay "2024-02-02" "p" "b" (by decide)⟩⟩

/-! ## Legislator sync (claims C8 and C9) -/

/-- Every branch of `processMember` other than the insert leaves the table
unchanged; when the member's external id is already stored, the insert
branch is unreachable, so the table never changes. -/
theorem processMember_noop_of_mem (chamber : String) (db : List PoliticianRow)
    (m : CongressMember)
    (hmem : (db.any fun row => row.congress_id == m.bioguideId) = true) :
    (processMember chamber db m).1 = db := by
  rcases hterm : m.terms.head? with _ | ⟨t⟩
  · simp only [processMember, hterm]
  · simp only [processMember, hterm]
    split_ifs <;> rfl

/-- Either a member fails the record filters on every table, or processing
it leaves its external id stored. -/
theorem processMember_cases (chamber : String) (db : List PoliticianRow)
    (m : CongressMember) :
    (∀ db2 : List PoliticianRow, (processMember chamber db2 m).1 = db2) ∨
    ∃ row ∈ (processMember chamber db m).1, (row.congress_id == m.bioguideId) = true := by
  rcases hterm : m.terms.head? with _ | ⟨t⟩
  · exact Or.inl fun db2 => by simp only [processMember, hterm]
  · by_cases h1 : ((if t.chamber == "House of Representatives" then "house" else "senate")
        ≠ (if jsToLower chamber == "house" then "house" else "senate"))
    · exact Or.inl fun db2 => by simp only [processMember, hterm]; rw [if_pos h1]
    · by_cases h2 : (parseFullName m.name = "" ∨ m.state = "")
      · exact Or.inl fun db2 => by
          simp only [processMember, hterm]; rw [if_neg h1, if_pos h2]
      · refine Or.inr ?_
        by_cases h3 : (db.any fun row => row.congress_id == m.bioguideId) = true
        · obtain ⟨row, hrow, hid⟩ := List.any_eq_true.mp h3
          exact ⟨row, by rw [processMember_noop_of_mem chamber db m h3]; exact hrow, hid⟩
        · have : processMember chamber db m =
              (db ++ [{ congress_id := m.bioguideId
                        name := parseFullName m.name
                        state := m.state
                        chamber := if t.chamber == "House of Representatives"
                          then "house" else "senate"
                        party := normalizeParty m.partyName }],
                MemberOutcome.inserted, 1, 0) := by
            simp only [processMember, hterm]
            rw [if_neg h1, if_neg h2, if_neg h3]
          rw [this]
          exact ⟨_, List.mem_append_right db (List.mem_singleton.mpr rfl), by simp⟩

/-- Function `processMember` only ever appends: stored rows survive. -/
theorem processMember_grows (chamber : String) (db : List PoliticianRow)
    (m : CongressMember) (row : PoliticianRow) (hrow : row ∈ db) :
    row ∈ (processMember chamber db m).1 := by
  rcases hterm : m.terms.head? with _ | ⟨t⟩
  · simpa only [processMember, hterm] using hrow
  · simp only [processMember, hterm]
    split_ifs <;> first | exact hrow | exact List.mem_append_left _ hrow

/-- Stored rows survive a whole member loop. -/
theorem processMembersDb_grows (chamber : String) (members : List CongressMember) :
    ∀ (db : List PoliticianRow) (row : PoliticianRow), row ∈ db →
      row ∈ processMembersDb chamber db members := by
  induction members with
  | nil => intro db row hrow; simpa [processMembersDb] using hrow
  | cons m rest ih =>
    intro db row hrow
    exact ih _ row (processMember_grows chamber db m row hrow)

/-- Running the member loop a second time over the same page changes
nothing: every member either fails the same record filters again or hits
the duplicate-key skip. -/
theorem processMembersDb_idempotent (chamber : String) (members : List CongressMember) :
    ∀ db : List PoliticianRow,
      processMembersDb chamber (processMembersDb chamber db members) members
        = processMembersDb chamber db members := by
  induction members with
  | nil => intro db; rfl
  | cons m rest ih =>
    intro db
    have hstep : processMembersDb chamber db (m :: rest)
        = processMembersDb chamber (processMember chamber db m).1 rest := rfl
    rcases processMember_cases chamber db m with hskip | ⟨row, hrow, hid⟩
    · calc processMembersDb chamber (processMembersDb chamber db (m :: rest)) (m :: rest)
          = processMembersDb chamber
              (processMember chamber (processMembersDb chamber db (m :: rest)) m).1 rest := rfl
      _ = processMembersDb chamber (processMembersDb chamber db (m :: rest)) rest := by
          rw [hskip]
      _ = processMembersDb chamber db (m :: rest) := by rw [hstep]; exact ih _
    · have hmem : ((processMembersDb chamber db (m :: rest)).any fun r =>
          r.congress_id == m.bioguideId) = true := by
        rw [List.any_eq_true]
        exact ⟨row, by rw [hstep]; exact processMembersDb_grows chamber rest _ row hrow, hid⟩
      calc processMembersDb chamber (processMembersDb chamber db (m :: rest)) (m :: rest)
          = processMembersDb chamber
              (processMember chamber (processMembersDb chamber db (m :: rest)) m).1 rest := rfl
      _ = processMembersDb chamber (processMembersDb chamber db (m :: rest)) rest := by
          rw [processMember_noop_of_mem _ _ _ hmem]
      _ = processMembersDb chamber db (m :: rest) := by rw [hstep]; exact ih _

/-- Claim C8: a member insert that hits the duplicate-key error (its
external id is already stored) is treated as already present — the table
is unchanged, the synced count and the error count both get 0 — and
repeating the member loop is therefore idempotent with no
read-before-write. -/
theorem duplicate_key_insert_treated_as_present
    : (∀ (chamber : String) (db : List PoliticianRow) (m : CongressMember) (t : MemberTerm),
        m.terms.head? = some t →
        (if t.chamber == "House of Representatives" then "house" else "senate")
            = (if jsToLower chamber == "house" then "house" else "senate") →
        parseFullName m.name ≠ "" →
        m.state ≠ "" →
        (db.any fun row => row.congress_id == m.bioguideId) = true →
        processMember chamber db m = (db, MemberOutcome.duplicate, 0, 0)) ∧
      (∀ (chamber : String) (members : List CongressMember) (db : List PoliticianRow),
        processMembersDb chamber (processMembersDb chamber db members) members
          = processMembersDb chamber db members) := by
  constructor
  · intro chamber db m t hterm hch hname hstate hdup
    simp only [processMember, hterm]
    rw [if_neg (not_ne_iff.mpr hch), if_neg (not_or.mpr ⟨hname, hstate⟩), if_pos hdup]
  · intro chamber members db
    exact processMembersDb_idempotent chamber members db

/-- A concrete duplicate-key run of C8: the senator record "A000001" is
already stored; re-processing the same upstream record changes nothing and
counts nothing. -/
theorem duplicate_key_insert_treated_as_present_witness :
    ((⟨"A000001", "Doe, Jane", "CA", some "Democratic Party",
          [⟨some 2021, "Senate"⟩]⟩ : CongressMember).terms.head?
        = some (⟨some 2021, "Senate"⟩ : MemberTerm)) ∧
    processMember "SENATE"
        [⟨"A000001", "Jane Doe", "CA", "senate", "D"⟩]
        ⟨"A000001", "Doe, Jane", "CA", some "Democratic Party", [⟨some 2021, "Senate"⟩]⟩
      = ([⟨"A000001", "Jane Doe", "CA", "senate", "D"⟩], MemberOutcome.duplicate, 0, 0) := by
  constructor
  · rfl
  · exact duplicate_key_insert_treated_as_present.1 "SENATE"
      [⟨"A000001", "Jane Doe", "CA", "senate", "D"⟩]
      ⟨"A000001", "Doe, Jane", "CA", some "Democratic Party", [⟨some 2021, "Senate"⟩]⟩
      ⟨some 2021, "Senate"⟩ rfl (by decide) (by decide) (by decide) (by decide)

/-- Claim C9: the legislator-sync stage declares success whenever the total
synced count is positive, regardless of the error list. -/
theorem partial_sync_success_is_success (senate house : Except String ℕ)
    (h : (syncPoliticians senate house).totalSynced > 0) :
    (syncPoliticians senate house).success = true := by
  rcases senate with e | n <;> rcases house with e2 | n2 <;>
    simp only [syncPoliticians] at h ⊢ <;> simp_all

/-- A concrete run of C9: the Senate chamber synced 5 records, the House
fetch threw — the stage still reports success with a non-empty error
list. -/
theorem partial_sync_success_is_success_witness :
    (syncPoliticians (Except.ok 5) (Except.error "boom")).totalSynced > 0 ∧
    (syncPoliticians (Except.ok 5) (Except.error "boom")).errors ≠ [] ∧
    (syncPoliticians (Except.ok 5) (Except.error "boom")).success = true :=
  ⟨by decide, by decide,
    partial_sync_success_is_success (Except.ok 5) (Except.error "boom") (by decide)⟩

/-! ## Full-sync success flag (claim C1) -/

/-- Counterexample to claim C1 as stated: a `fullSync` run whose merged
error list has one entry (a failed bill stage) still reports
`success = true` — the source deliberately allows up to nine errors
("Allow some errors but not too many").  Likewise the route-level
`POST /full-sync` reports success although a stage carried per-record
errors. -/
theorem full_sync_success_counterexample :
    ((fullSync ⟨false, 0, ["bill stage failed"]⟩ ⟨true, 0, 0, []⟩ ⟨true, 0, 0, []⟩
        true ⟨true, 0, []⟩).errors ≠ []) ∧
    ((fullSync ⟨false, 0, ["bill stage failed"]⟩ ⟨true, 0, 0, []⟩ ⟨true, 0, 0, []⟩
        true ⟨true, 0, []⟩).success = true) ∧
    ((⟨true, 5, ["member insert error"]⟩ : PoliticianSyncResult).errors ≠ []) ∧
    ((routeFullSync ⟨true, 5, ["member insert error"]⟩ ⟨true, 1, 1, []⟩
        ⟨true, 3, []⟩).1 = true) := by
  decide

/-- Claim C1 as amended: the `fullSync` success flag is true exactly when
the merged error list has FEWER THAN TEN entries (not when it is empty);
the route-level full-sync flag is true exactly when all three stages
reported success, ignoring any per-record errors nested inside them. -/
theorem full_sync_success_amended
    : (∀ (br : BillsStageResult) (hr sr : VotesStageResult) (cs : Bool)
          (scr : ScoresStageResult),
        (fullSync br hr sr cs scr).success = true
          ↔ (fullSync br hr sr cs scr).errors.length < 10) ∧
      (∀ (p : PoliticianSyncResult) (v : VotingRecordsStageResult)
          (s : ScoreCalcStageResult),
        (routeFullSync p v s).1 = true
          ↔ (p.success = true ∧ v.success = true ∧ s.success = true)) := by
  constructor
  · intro br hr sr cs scr
    simp [fullSync]
  · intro p v s
    rcases p with ⟨ps, pn, pe⟩
    rcases v with ⟨vs, vb, vr, ve⟩
    rcases s with ⟨ss, sn, se⟩
    cases ps <;> cases vs <;> cases ss <;> simp [routeFullSync]

/-- A concrete application of the amended C1: a run with one merged error
satisfies the fewer-than-ten bound and is reported successful. -/
theorem full_sync_success_amended_witness :
    ((fullSync ⟨false, 0, ["bill stage failed"]⟩ ⟨true, 2, 7, []⟩ ⟨true, 1, 4, []⟩
        true ⟨true, 9, []⟩).success = true
      ↔ (fullSync ⟨false, 0, ["bill stage failed"]⟩ ⟨true, 2, 7, []⟩ ⟨true, 1, 4, []⟩
        true ⟨true, 9, []⟩).errors.length < 10) :=
  full_sync_success_amended.1 ⟨false, 0, ["bill stage failed"]⟩ ⟨true, 2, 7, []⟩
    ⟨true, 1, 4, []⟩ true ⟨true, 9, []⟩

end Polity
